import Mathlib

/-!
Shallow embedding of the Sakura crank bot core (`src/crank-bot/index.ts`).

The bot's side-effectful RPC calls are modelled as environments that
prescribe, for each attempt, what each call would return or throw.  The
executor is a pure function from such an environment and the process-wide
metrics to the updated metrics together with a trace of observable events
(log lines, waits, pauses, the submission itself).
-/

namespace CrankBot

/-- Configuration constant `MAX_RETRIES` (index.ts line 21). -/
def MAX_RETRIES : Nat := 5

/-- Configuration constant `MAX_FEE_LAMPORTS` (index.ts line 22). -/
def MAX_FEE_LAMPORTS : Nat := 5000000

/-- Initial backoff delay in milliseconds (`let delay = 1000`, line 104). -/
def BASE_DELAY_MS : Nat := 1000

/-- Penalty pause in milliseconds (`setTimeout(res, 30000)`, line 167). -/
def PENALTY_PAUSE_MS : Nat := 30000

/-- Classification of a thrown error, as tested by the catch handler
(line 163): blockhash-expiry class (`BlockhashNotFound` or
`block height exceeded` in the message) versus everything else. -/
inductive ErrClass where
  | blockhashExpiry
  | other
deriving DecidableEq, Repr

/-- Process-wide metrics counters (index.ts lines 45-48). -/
structure Metrics where
  successCount : Nat
  failureCount : Nat
  lastSuccessSlot : Nat
  consecutiveBlockhashErrors : Nat
deriving DecidableEq, Repr

/-- The environment of one attempt: what each RPC call performed inside the
`try` block would return, or which class of error it would throw.
`feeQuery` models `getFeeForMessage(...).value`, which may be `null`
(`Option.none` here) or a lamport amount. `simulate` models
`simulateTransaction(...).value.err` being present (`true`) or absent. -/
structure AttemptEnv where
  blockhashFetch : Except ErrClass Unit
  feeQuery : Except ErrClass (Option Nat)
  simulate : Except ErrClass Bool
  submit : Except ErrClass Unit
  slotQuery : Except ErrClass Nat
deriving Repr

/-- Observable events of one invocation, in program order. -/
inductive Event where
  | buildStart
  | signed
  | feeChecked (v : Option Nat)
  | feeVetoLog (v : Nat)
  | simulated (err : Bool)
  | simFailLog
  | submitted
  | successMetrics (slot : Nat)
  | errorLog (e : ErrClass)
  | penaltyPause (ms : Nat)
  | criticalFailLog
  | backoffWait (ms : Nat)
  | reacquireConnection
deriving DecidableEq, Repr

/-- Terminal outcome of a single attempt (one pass through the `try` block). -/
inductive AttemptResult where
  | vetoed
  | simFailure
  | success (slot : Nat)
  | errored (e : ErrClass)
deriving DecidableEq, Repr

/-- The Boolean guard of the fee guardrail (index.ts line 134):
`feeMetadata.value !== null && feeMetadata.value > MAX_FEE_LAMPORTS`. -/
def feeVetoed : Option Nat → Bool
  | none => false
  | some v => decide (v > MAX_FEE_LAMPORTS)

/-- One pass through the `try` block of `executeCrankInstruction`
(index.ts lines 107-157): build the transaction and fetch a blockhash,
sign, run the fee guardrail, dry-run simulate, submit, then read the
current slot.  Any throw surfaces as `AttemptResult.errored` to be
handled by the catch handler. -/
def runAttempt (env : AttemptEnv) : AttemptResult × List Event :=
  match env.blockhashFetch with
  | .error e => (.errored e, [.buildStart, .errorLog e])
  | .ok _ =>
    match env.feeQuery with
    | .error e => (.errored e, [.buildStart, .signed, .errorLog e])
    | .ok v =>
      if feeVetoed v then
        (.vetoed, [.buildStart, .signed, .feeChecked v,
                   .feeVetoLog (v.getD 0)])
      else
        match env.simulate with
        | .error e =>
            (.errored e, [.buildStart, .signed, .feeChecked v, .errorLog e])
        | .ok simErr =>
          if simErr then
            (.simFailure, [.buildStart, .signed, .feeChecked v,
                           .simulated simErr, .simFailLog])
          else
            match env.submit with
            | .error e =>
                (.errored e, [.buildStart, .signed, .feeChecked v,
                              .simulated simErr, .errorLog e])
            | .ok _ =>
              match env.slotQuery with
              | .error e =>
                  (.errored e, [.buildStart, .signed, .feeChecked v,
                                .simulated simErr, .submitted, .errorLog e])
              | .ok slot =>
                  (.success slot, [.buildStart, .signed, .feeChecked v,
                                   .simulated simErr, .submitted,
                                   .successMetrics slot])

/-- The blockhash-expiry guard inside the catch handler (index.ts lines
162-172): on an expiry-class error increment `consecutiveBlockhashErrors`
and, when it reaches 3, take the 30 s penalty pause and reset it to zero;
on any other error reset it to zero.  Returns the new counter value and
the pause events emitted. -/
def handleFailure (e : ErrClass) (cbe : Nat) : Nat × List Event :=
  match e with
  | .blockhashExpiry =>
      if cbe + 1 ≥ 3 then (0, [.penaltyPause PENALTY_PAUSE_MS])
      else (cbe + 1, [])
  | .other => (0, [])

/-- Sequential processing of a list of failure classes through the catch
handler, threading `consecutiveBlockhashErrors` and collecting pauses. -/
def runFailures (es : List ErrClass) (cbe : Nat) : Nat × List Event :=
  match es with
  | [] => (cbe, [])
  | e :: rest =>
      let r := handleFailure e cbe
      let r2 := runFailures rest r.1
      (r2.1, r.2 ++ r2.2)

/-- The retry loop of `executeCrankInstruction` (`while attempts <
MAX_RETRIES`, index.ts lines 106-189).  `envs i` is the environment of the
attempt with attempt index `i`; `fuel` is `MAX_RETRIES - attempts`, which
the loop condition keeps positive exactly while iterations continue. -/
def execLoop (envs : Nat → AttemptEnv) : Nat → Nat → Nat → Metrics →
    Metrics × List Event
  | 0, _, _, m => (m, [])
  | fuel + 1, attempts, delay, m =>
    let a := runAttempt (envs attempts)
    match a.1 with
    | .vetoed => (m, a.2)
    | .simFailure =>
        ({ m with failureCount := m.failureCount + 1 }, a.2)
    | .success slot =>
        ({ m with successCount := m.successCount + 1,
                  lastSuccessSlot := slot,
                  consecutiveBlockhashErrors := 0 }, a.2)
    | .errored e =>
        let h := handleFailure e m.consecutiveBlockhashErrors
        let m' := { m with consecutiveBlockhashErrors := h.1,
                           failureCount := m.failureCount + 1 }
        if attempts + 1 ≥ MAX_RETRIES then
          (m', a.2 ++ h.2 ++ [.criticalFailLog])
        else
          let rest := execLoop envs fuel (attempts + 1) (delay * 2) m'
          (rest.1, a.2 ++ h.2 ++
            [.backoffWait delay, .reacquireConnection] ++ rest.2)

/-- One full invocation of `executeCrankInstruction` (index.ts lines
102-190), starting from attempt index 0 and the 1000 ms base delay. -/
def executeCrankInstruction (envs : Nat → AttemptEnv) (m : Metrics) :
    Metrics × List Event :=
  execLoop envs MAX_RETRIES 0 BASE_DELAY_MS m

/-- The backoff waits appearing in a trace, in order. -/
def backoffWaits (tr : List Event) : List Nat :=
  tr.filterMap fun e =>
    match e with
    | .backoffWait d => some d
    | _ => none

/-- Position of a step event in the BUILD / SIGN / FEE_CHECK / SIMULATE /
SUBMIT pipeline; non-step events carry no position. -/
def stepIndex : Event → Option Nat
  | .buildStart => some 0
  | .signed => some 1
  | .feeChecked _ => some 2
  | .simulated _ => some 3
  | .submitted => some 4
  | _ => none

/-- An endpoint choice of the connection selector. -/
inductive Conn where
  | primary
  | fallback
deriving DecidableEq, Repr

/-- Probe events of the connection selector. -/
inductive ProbeEvent where
  | probePrimary
deriving DecidableEq, Repr

/-- `getConnectionWithFailover` (index.ts lines 59-68): probe the primary
endpoint once with `getSlot()`; if the probe succeeds return the primary
connection, otherwise return a fallback connection without probing it.
`primaryLive` is the outcome of the single probe.  The function never
fails: the fallback connection is constructed unconditionally. -/
def getConnectionWithFailover (primaryLive : Bool) : Conn × List ProbeEvent :=
  if primaryLive then (.primary, [.probePrimary])
  else (.fallback, [.probePrimary])

/-- Outcome of parsing `CRANK_KEYPAIR_JSON` at startup (index.ts lines
29-42): the JSON may fail to parse, parse to an empty array (also the
default for an absent variable), or parse to a nonempty byte array. -/
inductive KeyEnv where
  | malformed
  | emptyList
  | key (bytes : List Nat)
deriving DecidableEq, Repr

/-- Where the crank wallet came from. -/
inductive WalletSource where
  | fromSecret (bytes : List Nat)
  | randomGenerated
deriving DecidableEq, Repr

/-- Startup result: either the process exits or it proceeds into the
scheduler loop with some wallet. -/
inductive StartupResult where
  | exitProcess (code : Nat)
  | proceed (wallet : WalletSource)
deriving DecidableEq, Repr

/-- Startup wallet handling (index.ts lines 29-42): everything inside the
`try` block can throw.  A JSON parse error is caught and the process
exits with code 1.  An empty array produces a randomly generated keypair
plus a warning and the process continues.  A nonempty array is passed to
`Keypair.fromSecretKey` (line 34), which — being SDK-internal — is
modelled by the abstract acceptance predicate `sdkAccepts`: an accepted
array yields the wallet from that secret, a rejected array throws into
the same catch and the process exits with code 1. -/
def startupWallet (sdkAccepts : List Nat → Bool) : KeyEnv → StartupResult
  | .malformed => .exitProcess 1
  | .emptyList => .proceed .randomGenerated
  | .key bytes =>
      if sdkAccepts bytes then .proceed (.fromSecret bytes)
      else .exitProcess 1

/-- A concrete stand-in for `Keypair.fromSecretKey` acceptance: the SDK
requires a 64-byte secret key and throws on any other length. -/
def sdkLen64 : List Nat → Bool := fun bytes => decide (bytes.length = 64)

/-- A fully clean attempt environment: fee 1000 lamports, simulation
clean, submission accepted, slot 1000 afterwards. -/
def cleanEnv : AttemptEnv :=
  { blockhashFetch := .ok (), feeQuery := .ok (some 1000),
    simulate := .ok false, submit := .ok (), slotQuery := .ok 1000 }

/-- A clean environment except the fee estimate is 6,000,000 lamports,
above the 5,000,000 ceiling. -/
def highFeeEnv : AttemptEnv :=
  { cleanEnv with feeQuery := .ok (some 6000000) }

/-- A clean environment except the simulation reports an execution
error. -/
def simErrEnv : AttemptEnv :=
  { cleanEnv with simulate := .ok true }

/-- A clean environment except the submission throws a non-expiry
error. -/
def submitFailEnv : AttemptEnv :=
  { cleanEnv with submit := .error .other }

/-- A clean environment except the fee query returns a `null` value. -/
def nullFeeEnv : AttemptEnv :=
  { cleanEnv with feeQuery := .ok none }

/-- Zeroed process metrics, as at process start. -/
def metrics0 : Metrics :=
  { successCount := 0, failureCount := 0, lastSuccessSlot := 0,
    consecutiveBlockhashErrors := 0 }

/-- Metrics with one outstanding consecutive blockhash error, as after a
previous invocation ended with a single expiry-class failure. -/
def metricsCbe1 : Metrics :=
  { successCount := 0, failureCount := 0, lastSuccessSlot := 0,
    consecutiveBlockhashErrors := 1 }

/-! ### Characterisation of single attempts -/

/-- A fee estimate strictly above the ceiling makes the attempt end in a
veto, with the build / sign / fee-check events already emitted. -/
theorem runAttempt_veto (env : AttemptEnv) (f : Nat)
    (hb : env.blockhashFetch = Except.ok ())
    (hf : env.feeQuery = Except.ok (some f))
    (hc : MAX_FEE_LAMPORTS < f) :
    runAttempt env = (.vetoed,
      [.buildStart, .signed, .feeChecked (some f), .feeVetoLog f]) := by
  simp [runAttempt, hb, hf, feeVetoed, hc]

/-- A simulation-reported execution error (with the fee guard passing)
makes the attempt end in `simFailure`. -/
theorem runAttempt_simFail (env : AttemptEnv) (v : Option Nat)
    (hb : env.blockhashFetch = Except.ok ())
    (hf : env.feeQuery = Except.ok v)
    (hnv : feeVetoed v = false)
    (hs : env.simulate = Except.ok true) :
    runAttempt env = (.simFailure,
      [.buildStart, .signed, .feeChecked v, .simulated true,
       .simFailLog]) := by
  simp [runAttempt, hb, hf, hnv, hs]

/-! ### One-step unfoldings of the retry loop -/

/-- Loop step: a vetoed attempt breaks out with the metrics untouched. -/
theorem execLoop_veto (envs : Nat → AttemptEnv) (fuel a d : Nat)
    (m : Metrics) (tr : List Event)
    (h : runAttempt (envs a) = (.vetoed, tr)) :
    execLoop envs (fuel + 1) a d m = (m, tr) := by
  simp [execLoop, h]

/-- Loop step: a simulation failure increments `failureCount` and breaks
out. -/
theorem execLoop_simFail (envs : Nat → AttemptEnv) (fuel a d : Nat)
    (m : Metrics) (tr : List Event)
    (h : runAttempt (envs a) = (.simFailure, tr)) :
    execLoop envs (fuel + 1) a d m =
      ({ m with failureCount := m.failureCount + 1 }, tr) := by
  simp [execLoop, h]

/-- Loop step: a successful attempt records the success metrics and
returns. -/
theorem execLoop_success (envs : Nat → AttemptEnv) (fuel a d : Nat)
    (m : Metrics) (tr : List Event) (slot : Nat)
    (h : runAttempt (envs a) = (.success slot, tr)) :
    execLoop envs (fuel + 1) a d m =
      ({ m with successCount := m.successCount + 1,
                lastSuccessSlot := slot,
                consecutiveBlockhashErrors := 0 }, tr) := by
  simp [execLoop, h]

/-- Loop step: an error on the last allowed attempt runs the catch
handler and ends with the critical-failure log. -/
theorem execLoop_errored_last (envs : Nat → AttemptEnv) (fuel a d : Nat)
    (m : Metrics) (tr : List Event) (e : ErrClass)
    (h : runAttempt (envs a) = (.errored e, tr))
    (hlast : MAX_RETRIES ≤ a + 1) :
    execLoop envs (fuel + 1) a d m =
      ({ m with consecutiveBlockhashErrors :=
                  (handleFailure e m.consecutiveBlockhashErrors).1,
                failureCount := m.failureCount + 1 },
       tr ++ (handleFailure e m.consecutiveBlockhashErrors).2 ++
         [.criticalFailLog]) := by
  simp [execLoop, h, hlast]

/-- Loop step: an error with attempts remaining runs the catch handler,
waits the current backoff delay, re-acquires the connection, and
continues with the delay doubled. -/
theorem execLoop_errored_retry (envs : Nat → AttemptEnv) (fuel a d : Nat)
    (m : Metrics) (tr : List Event) (e : ErrClass)
    (h : runAttempt (envs a) = (.errored e, tr))
    (hmore : a + 1 < MAX_RETRIES) :
    execLoop envs (fuel + 1) a d m =
      ((execLoop envs fuel (a + 1) (d * 2)
          { m with consecutiveBlockhashErrors :=
                     (handleFailure e m.consecutiveBlockhashErrors).1,
                   failureCount := m.failureCount + 1 }).1,
       tr ++ (handleFailure e m.consecutiveBlockhashErrors).2 ++
         [.backoffWait d, .reacquireConnection] ++
         (execLoop envs fuel (a + 1) (d * 2)
            { m with consecutiveBlockhashErrors :=
                       (handleFailure e m.consecutiveBlockhashErrors).1,
                     failureCount := m.failureCount + 1 }).2) := by
  have hnot : ¬ MAX_RETRIES ≤ a + 1 := by omega
  simp [execLoop, h, hnot]

/-! ### Claims about the crank executor -/

/-- Claim C1: when the fee query of the first attempt returns an estimate
strictly above the 5,000,000-lamport ceiling, the invocation terminates
cleanly: the metrics (in particular `failureCount`) are unchanged, no
submission happens, no backoff wait occurs, and no further attempt is
started. -/
theorem spec_c1_fee_veto_clean_exit (envs : Nat → AttemptEnv)
    (m : Metrics) (f : Nat)
    (hb : (envs 0).blockhashFetch = Except.ok ())
    (hf : (envs 0).feeQuery = Except.ok (some f))
    (hc : MAX_FEE_LAMPORTS < f) :
    (executeCrankInstruction envs m).1 = m ∧
    Event.submitted ∉ (executeCrankInstruction envs m).2 ∧
    backoffWaits (executeCrankInstruction envs m).2 = [] ∧
    (executeCrankInstruction envs m).2.count Event.buildStart = 1 := by
  have h := runAttempt_veto (envs 0) f hb hf hc
  have hstep := execLoop_veto envs 4 0 BASE_DELAY_MS m _ h
  have hrun : executeCrankInstruction envs m =
      (m, [.buildStart, .signed, .feeChecked (some f), .feeVetoLog f]) :=
    hstep
  rw [hrun]
  refine ⟨rfl, ?_, ?_, ?_⟩
  · simp
  · simp [backoffWaits]
  · simp [List.count_cons]

/-- Witness for C1 at the concrete high-fee environment. -/
theorem spec_c1_witness :
    (executeCrankInstruction (fun _ => highFeeEnv) metrics0).1 = metrics0 ∧
    Event.submitted ∉
      (executeCrankInstruction (fun _ => highFeeEnv) metrics0).2 ∧
    backoffWaits
      (executeCrankInstruction (fun _ => highFeeEnv) metrics0).2 = [] ∧
    (executeCrankInstruction (fun _ => highFeeEnv) metrics0).2.count
      Event.buildStart = 1 :=
  spec_c1_fee_veto_clean_exit (fun _ => highFeeEnv) metrics0 6000000
    rfl rfl (by decide)

/-- Claim C2: when the first attempt's fee guard passes but the dry-run
simulation reports an execution error, the invocation aborts without any
submission, `failureCount` increases by exactly one, no backoff wait
occurs, and no further attempt is started. -/
theorem spec_c2_sim_error_aborts (envs : Nat → AttemptEnv)
    (m : Metrics) (v : Option Nat)
    (hb : (envs 0).blockhashFetch = Except.ok ())
    (hf : (envs 0).feeQuery = Except.ok v)
    (hnv : feeVetoed v = false)
    (hs : (envs 0).simulate = Except.ok true) :
    (executeCrankInstruction envs m).1.failureCount =
      m.failureCount + 1 ∧
    (executeCrankInstruction envs m).1.successCount = m.successCount ∧
    Event.submitted ∉ (executeCrankInstruction envs m).2 ∧
    backoffWaits (executeCrankInstruction envs m).2 = [] ∧
    (executeCrankInstruction envs m).2.count Event.buildStart = 1 := by
  have h := runAttempt_simFail (envs 0) v hb hf hnv hs
  have hrun : executeCrankInstruction envs m =
      ({ m with failureCount := m.failureCount + 1 },
       [.buildStart, .signed, .feeChecked v, .simulated true,
        .simFailLog]) :=
    execLoop_simFail envs 4 0 BASE_DELAY_MS m _ h
  rw [hrun]
  refine ⟨rfl, rfl, ?_, ?_, ?_⟩
  · simp
  · simp [backoffWaits]
  · simp [List.count_cons]

/-- Witness for C2 at the concrete simulation-error environment. -/
theorem spec_c2_witness :
    (executeCrankInstruction (fun _ => simErrEnv) metrics0).1.failureCount =
      metrics0.failureCount + 1 ∧
    (executeCrankInstruction (fun _ => simErrEnv) metrics0).1.successCount =
      metrics0.successCount ∧
    Event.submitted ∉
      (executeCrankInstruction (fun _ => simErrEnv) metrics0).2 ∧
    backoffWaits
      (executeCrankInstruction (fun _ => simErrEnv) metrics0).2 = [] ∧
    (executeCrankInstruction (fun _ => simErrEnv) metrics0).2.count
      Event.buildStart = 1 :=
  spec_c2_sim_error_aborts (fun _ => simErrEnv) metrics0 (some 1000)
    rfl rfl (by decide) rfl

/-- Counterexample to claim C3 as stated: with a fee estimate above the
ceiling the attempt is vetoed before any submission, yet the transaction
has already been signed — so signing does not happen in the SUBMIT step
after the fee check passes; it happens during BUILD. -/
theorem spec_c3_counterexample :
    Event.signed ∈ (runAttempt highFeeEnv).2 ∧
    (runAttempt highFeeEnv).1 = AttemptResult.vetoed ∧
    Event.submitted ∉ (runAttempt highFeeEnv).2 := by
  decide

/-- Claim C3 (amended): within every attempt the pipeline steps occur
strictly in order with none skipped or reordered — BUILD, then signing,
then FEE_CHECK, then SIMULATE, then SUBMIT.  Signing thus happens at the
end of BUILD, before the fee check and the simulation, not in the SUBMIT
step: the step positions observed form `List.range k` for some `k ≤ 5`,
with signing at position 1 and submission at position 4. -/
theorem spec_c3_steps_in_order (env : AttemptEnv) :
    ∃ k, k ≤ 5 ∧
      (runAttempt env).2.filterMap stepIndex = List.range k := by
  obtain ⟨bf, fq, sim, sub, sq⟩ := env
  rcases bf with e | u
  · exact ⟨1, by omega, by simp [runAttempt, stepIndex, List.range_succ]⟩
  rcases fq with e | v
  · exact ⟨2, by omega, by simp [runAttempt, stepIndex, List.range_succ]⟩
  cases hfv : feeVetoed v
  · rcases sim with e | simErr
    · exact ⟨3, by omega,
        by simp [runAttempt, hfv, stepIndex, List.range_succ]⟩
    cases simErr
    · rcases sub with e | u2
      · exact ⟨4, by omega,
          by simp [runAttempt, hfv, stepIndex, List.range_succ]⟩
      rcases sq with e | slot
      · exact ⟨5, by omega,
          by simp [runAttempt, hfv, stepIndex, List.range_succ]⟩
      · exact ⟨5, by omega,
          by simp [runAttempt, hfv, stepIndex, List.range_succ]⟩
    · exact ⟨4, by omega,
        by simp [runAttempt, hfv, stepIndex, List.range_succ]⟩
  · exact ⟨3, by omega,
      by simp [runAttempt, hfv, stepIndex, List.range_succ]⟩

/-- A clean environment except the submission throws an expiry-class
error (`BlockhashNotFound` / block height exceeded). -/
def expiryFailEnv : AttemptEnv :=
  { cleanEnv with submit := .error .blockhashExpiry }

/-- Claim C5: the third consecutive expiry-class failure triggers exactly
one 30-second penalty pause and resets the consecutive-expiry counter to
zero; one or two expiry failures cause no pause; a non-expiry failure
after one or two expiry failures resets the counter to zero without a
pause.  The last conjunct checks the full executor: five consecutive
expiry-class submission failures produce exactly one penalty pause. -/
theorem spec_c5_expiry_pause_threshold :
    runFailures [.blockhashExpiry, .blockhashExpiry, .blockhashExpiry] 0 =
      (0, [Event.penaltyPause PENALTY_PAUSE_MS]) ∧
    runFailures [.blockhashExpiry, .blockhashExpiry] 0 = (2, []) ∧
    runFailures [.blockhashExpiry, .other] 0 = (0, []) ∧
    runFailures [.blockhashExpiry, .blockhashExpiry, .other] 0 =
      (0, []) ∧
    (executeCrankInstruction (fun _ => expiryFailEnv) metrics0).2.count
      (Event.penaltyPause PENALTY_PAUSE_MS) = 1 := by
  decide

/-- Claim C7: the connection selector probes the primary endpoint exactly
once (never the fallback, never a second probe of the primary); it
returns the primary connection when the probe succeeds and otherwise the
fallback connection without retrying the primary.  It always returns a
connection — in particular whenever at least one endpoint is reachable —
so a failure can only be blamed on every endpoint being unreachable. -/
theorem spec_c7_connection_failover (primaryLive fallbackLive : Bool) :
    (getConnectionWithFailover primaryLive).2 =
      [ProbeEvent.probePrimary] ∧
    (primaryLive = true →
      (getConnectionWithFailover primaryLive).1 = Conn.primary) ∧
    (primaryLive = false →
      (getConnectionWithFailover primaryLive).1 = Conn.fallback) ∧
    (primaryLive = true ∨ fallbackLive = true →
      ∃ c, (getConnectionWithFailover primaryLive).1 = c) := by
  cases primaryLive <;> simp [getConnectionWithFailover]

/-- Witness for C7: a dead primary yields the fallback, a live primary
yields the primary. -/
theorem spec_c7_witness :
    (getConnectionWithFailover false).1 = Conn.fallback ∧
    (getConnectionWithFailover true).1 = Conn.primary :=
  ⟨(spec_c7_connection_failover false true).2.2.1 rfl,
   (spec_c7_connection_failover true true).2.1 rfl⟩

/-- Counterexample to claim C8 as stated: when no wallet key is provided
(`CRANK_KEYPAIR_JSON` absent or an empty array) the process does not
exit — it generates a random keypair, logs a warning, and proceeds into
the scheduler loop. -/
theorem spec_c8_counterexample :
    startupWallet sdkLen64 KeyEnv.emptyList =
      StartupResult.proceed WalletSource.randomGenerated ∧
    startupWallet sdkLen64 KeyEnv.emptyList ≠
      StartupResult.exitProcess 1 := by
  decide

/-- Claim C8 (amended): startup is fatal in exactly two cases — the
wallet key JSON fails to parse, or a provided nonempty key is rejected by
`Keypair.fromSecretKey`; in both the process exits with code 1.  When no
key is provided (absent variable or empty array) the process does not
exit: it proceeds into the scheduler loop with a randomly generated
keypair (after a warning).  An accepted nonempty key is used as the
wallet secret. -/
theorem spec_c8_startup_key_handling (sdkAccepts : List Nat → Bool)
    (bytes : List Nat) :
    startupWallet sdkAccepts KeyEnv.malformed =
      StartupResult.exitProcess 1 ∧
    startupWallet sdkAccepts KeyEnv.emptyList =
      StartupResult.proceed WalletSource.randomGenerated ∧
    (sdkAccepts bytes = true →
      startupWallet sdkAccepts (KeyEnv.key bytes) =
        StartupResult.proceed (WalletSource.fromSecret bytes)) ∧
    (sdkAccepts bytes = false →
      startupWallet sdkAccepts (KeyEnv.key bytes) =
        StartupResult.exitProcess 1) := by
  refine ⟨rfl, rfl, fun h => ?_, fun h => ?_⟩
  · simp [startupWallet, h]
  · simp [startupWallet, h]

/-- Witness for C8 (amended): under the 64-byte SDK rule, the invalid
nonempty key `[1, 2, 3]` is fatal at startup, while a 64-byte key
proceeds with that secret. -/
theorem spec_c8_witness :
    startupWallet sdkLen64 (KeyEnv.key [1, 2, 3]) =
      StartupResult.exitProcess 1 ∧
    startupWallet sdkLen64 (KeyEnv.key (List.replicate 64 0)) =
      StartupResult.proceed
        (WalletSource.fromSecret (List.replicate 64 0)) :=
  ⟨(spec_c8_startup_key_handling sdkLen64 [1, 2, 3]).2.2.2 (by decide),
   (spec_c8_startup_key_handling sdkLen64
      (List.replicate 64 0)).2.2.1 (by decide)⟩

/-- Claim C10: a `null` fee estimate does not veto: the attempt is never
vetoed, no veto log is emitted, the simulation step is still reached, and
with a clean simulation and accepted submission the attempt succeeds,
exactly as if the fee had been within the ceiling. -/
theorem spec_c10_null_fee_proceeds (env : AttemptEnv) (slot : Nat)
    (hb : env.blockhashFetch = Except.ok ())
    (hf : env.feeQuery = Except.ok none) :
    (runAttempt env).1 ≠ AttemptResult.vetoed ∧
    (∀ v, Event.feeVetoLog v ∉ (runAttempt env).2) ∧
    (∀ r, env.simulate = Except.ok r →
      Event.simulated r ∈ (runAttempt env).2) ∧
    (env.simulate = Except.ok false → env.submit = Except.ok () →
      env.slotQuery = Except.ok slot →
      (runAttempt env).1 = AttemptResult.success slot) := by
  obtain ⟨bf, fq, sim, sub, sq⟩ := env
  have hb' : bf = Except.ok () := hb
  have hf' : fq = Except.ok none := hf
  subst hb'
  subst hf'
  rcases sim with e | simErr
  · simp [runAttempt, feeVetoed]
  cases simErr
  · rcases sub with e | u2
    · simp [runAttempt, feeVetoed]
    rcases sq with e | s
    · simp [runAttempt, feeVetoed]
    · refine ⟨by simp [runAttempt, feeVetoed],
        by simp [runAttempt, feeVetoed],
        by simp [runAttempt, feeVetoed], ?_⟩
      intro _ _ h3
      have hs : s = slot := by
        simpa using h3
      subst hs
      simp [runAttempt, feeVetoed]
  · simp [runAttempt, feeVetoed]

/-- Witness for C10 at the concrete null-fee environment. -/
theorem spec_c10_witness :
    (runAttempt nullFeeEnv).1 ≠ AttemptResult.vetoed ∧
    (∀ v, Event.feeVetoLog v ∉ (runAttempt nullFeeEnv).2) ∧
    (∀ r, nullFeeEnv.simulate = Except.ok r →
      Event.simulated r ∈ (runAttempt nullFeeEnv).2) ∧
    (nullFeeEnv.simulate = Except.ok false →
      nullFeeEnv.submit = Except.ok () →
      nullFeeEnv.slotQuery = Except.ok 1000 →
      (runAttempt nullFeeEnv).1 = AttemptResult.success 1000) :=
  spec_c10_null_fee_proceeds nullFeeEnv 1000 rfl rfl

/-- A single attempt emits no backoff wait: waits happen only in the
catch handler of the retry loop. -/
theorem backoffWaits_runAttempt (env : AttemptEnv) :
    backoffWaits (runAttempt env).2 = [] := by
  obtain ⟨bf, fq, sim, sub, sq⟩ := env
  rcases bf with e | u
  · simp [runAttempt, backoffWaits]
  rcases fq with e | v
  · simp [runAttempt, backoffWaits]
  cases hfv : feeVetoed v
  · rcases sim with e | simErr
    · simp [runAttempt, hfv, backoffWaits]
    cases simErr
    · rcases sub with e | u2
      · simp [runAttempt, hfv, backoffWaits]
      rcases sq with e | s
      · simp [runAttempt, hfv, backoffWaits]
      · simp [runAttempt, hfv, backoffWaits]
    · simp [runAttempt, hfv, backoffWaits]
  · simp [runAttempt, hfv, backoffWaits]

/-- The blockhash-expiry guard emits no backoff wait (only, possibly, the
penalty pause). -/
theorem backoffWaits_handleFailure (e : ErrClass) (c : Nat) :
    backoffWaits (handleFailure e c).2 = [] := by
  rcases e with _ | _
  · by_cases h3 : c + 1 ≥ 3 <;> simp [handleFailure, h3, backoffWaits]
  · simp [handleFailure, backoffWaits]

/-- In the retry loop the backoff waits form the doubling sequence
`d, 2d, 4d, …`: with `fuel` attempts remaining there are at most
`fuel - 1` waits and the `i`-th wait is `d * 2 ^ i`. -/
theorem execLoop_backoffWaits (envs : Nat → AttemptEnv) :
    ∀ fuel a d m, a + fuel = MAX_RETRIES →
      ∃ k, k ≤ fuel - 1 ∧
        backoffWaits (execLoop envs fuel a d m).2 =
          (List.range k).map (fun i => d * 2 ^ i) := by
  intro fuel
  induction fuel with
  | zero =>
    intro a d m hfa
    exact ⟨0, by omega, by simp [execLoop, backoffWaits]⟩
  | succ n ih =>
    intro a d m hfa
    rcases hr : runAttempt (envs a) with ⟨res, tr⟩
    have htr : backoffWaits tr = [] := by
      have h2 := backoffWaits_runAttempt (envs a)
      rw [hr] at h2
      exact h2
    rcases res with _ | _ | slot | e
    · exact ⟨0, by omega,
        by rw [execLoop_veto envs n a d m tr hr]; simpa using htr⟩
    · exact ⟨0, by omega,
        by rw [execLoop_simFail envs n a d m tr hr]; simpa using htr⟩
    · exact ⟨0, by omega,
        by rw [execLoop_success envs n a d m tr slot hr]; simpa using htr⟩
    · by_cases hlast : MAX_RETRIES ≤ a + 1
      · refine ⟨0, by omega, ?_⟩
        rw [execLoop_errored_last envs n a d m tr e hr hlast]
        have h3 := backoffWaits_handleFailure e m.consecutiveBlockhashErrors
        simp only [backoffWaits, List.filterMap_append] at htr h3 ⊢
        simp [htr, h3]
      · have hmore : a + 1 < MAX_RETRIES := by omega
        rw [execLoop_errored_retry envs n a d m tr e hr hmore]
        obtain ⟨k, hk, heq⟩ := ih (a + 1) (d * 2)
          { m with consecutiveBlockhashErrors :=
                     (handleFailure e m.consecutiveBlockhashErrors).1,
                   failureCount := m.failureCount + 1 } (by omega)
        refine ⟨k + 1, by omega, ?_⟩
        have h3 := backoffWaits_handleFailure e m.consecutiveBlockhashErrors
        simp only [backoffWaits, List.filterMap_append] at htr h3 heq ⊢
        rw [htr, h3, heq]
        have hfun : ((fun i => d * 2 ^ i) ∘ Nat.succ) =
            fun i => d * 2 * 2 ^ i := by
          funext i
          simp only [Function.comp_apply, Nat.succ_eq_add_one]
          ring
        simp [List.range_succ_eq_map, List.map_map, hfun]

/-- Claim C4: within one invocation the backoff delays waited between
consecutive retry attempts start at the 1000 ms base and strictly double:
the waits observed are exactly `1000 * 2 ^ 0, 1000 * 2 ^ 1, …` for the
first `k` retries, with `k` at most `MAX_RETRIES - 1`. -/
theorem spec_c4_backoff_doubles (envs : Nat → AttemptEnv) (m : Metrics) :
    ∃ k, k ≤ MAX_RETRIES - 1 ∧
      backoffWaits (executeCrankInstruction envs m).2 =
        (List.range k).map (fun i => BASE_DELAY_MS * 2 ^ i) :=
  execLoop_backoffWaits envs MAX_RETRIES 0 BASE_DELAY_MS m rfl

/-- When every attempt the loop can reach throws, the loop exhausts its
fuel: `failureCount` grows by exactly `fuel`, `successCount` is
untouched, and (when at least one attempt ran) the critical-failure log
is emitted. -/
theorem execLoop_all_errored (envs : Nat → AttemptEnv) :
    ∀ fuel a d m, a + fuel = MAX_RETRIES →
      (∀ i, a ≤ i → i < MAX_RETRIES →
        ∃ e, (runAttempt (envs i)).1 = AttemptResult.errored e) →
      (execLoop envs fuel a d m).1.failureCount =
        m.failureCount + fuel ∧
      (execLoop envs fuel a d m).1.successCount = m.successCount ∧
      (0 < fuel →
        Event.criticalFailLog ∈ (execLoop envs fuel a d m).2) := by
  intro fuel
  induction fuel with
  | zero =>
    intro a d m hfa h
    exact ⟨by simp [execLoop], by simp [execLoop],
      fun hlt => (Nat.lt_irrefl 0 hlt).elim⟩
  | succ n ih =>
    intro a d m hfa h
    obtain ⟨e, he⟩ := h a (Nat.le_refl a) (by omega)
    have hr : runAttempt (envs a) =
        (AttemptResult.errored e, (runAttempt (envs a)).2) := by
      rw [← he]
    by_cases hlast : MAX_RETRIES ≤ a + 1
    · rw [execLoop_errored_last envs n a d m _ e hr hlast]
      have hn : n = 0 := by
        simp [MAX_RETRIES] at hfa hlast
        omega
      refine ⟨by simp [hn], rfl, fun _ => ?_⟩
      simp
    · have hmore : a + 1 < MAX_RETRIES := by omega
      rw [execLoop_errored_retry envs n a d m _ e hr hmore]
      obtain ⟨ih1, ih2, ih3⟩ := ih (a + 1) (d * 2)
        { m with consecutiveBlockhashErrors :=
                   (handleFailure e m.consecutiveBlockhashErrors).1,
                 failureCount := m.failureCount + 1 } (by omega)
        (fun i hi1 hi2 => h i (by omega) hi2)
      have hn : 0 < n := by
        simp [MAX_RETRIES] at hfa hmore
        omega
      refine ⟨?_, ?_, fun _ => ?_⟩
      · rw [ih1]
        simp
        omega
      · rw [ih2]
      · simp [ih3 hn]

/-- Claim C6: when every attempt of the invocation fails with a thrown
error, the invocation exhausts its budget of `MAX_RETRIES = 5` attempts,
`failureCount` increases by exactly 5, no success is recorded, the
critical failure is logged, and the invocation returns normally (the
executor is a total function into metrics and a trace). -/
theorem spec_c6_exhaustion_terminal (envs : Nat → AttemptEnv)
    (m : Metrics)
    (h : ∀ i, i < MAX_RETRIES →
      ∃ e, (runAttempt (envs i)).1 = AttemptResult.errored e) :
    (executeCrankInstruction envs m).1.failureCount =
      m.failureCount + MAX_RETRIES ∧
    (executeCrankInstruction envs m).1.successCount = m.successCount ∧
    Event.criticalFailLog ∈ (executeCrankInstruction envs m).2 := by
  obtain ⟨h1, h2, h3⟩ := execLoop_all_errored envs MAX_RETRIES 0
    BASE_DELAY_MS m rfl (fun i _ hi => h i hi)
  exact ⟨h1, h2, h3 (by decide)⟩

/-- Witness for C6: every submission throws a non-expiry error. -/
theorem spec_c6_witness :
    (executeCrankInstruction (fun _ => submitFailEnv)
        metrics0).1.failureCount =
      metrics0.failureCount + MAX_RETRIES ∧
    (executeCrankInstruction (fun _ => submitFailEnv)
        metrics0).1.successCount = metrics0.successCount ∧
    Event.criticalFailLog ∈
      (executeCrankInstruction (fun _ => submitFailEnv) metrics0).2 :=
  spec_c6_exhaustion_terminal (fun _ => submitFailEnv) metrics0
    (fun _ _ => ⟨.other, rfl⟩)

/-- First attempt fails with a non-expiry error, second attempt is
vetoed by the fee guard, ending the invocation. -/
def envOtherThenVeto : Nat → AttemptEnv := fun i =>
  if i = 0 then submitFailEnv else highFeeEnv

/-- Counterexample to claim C9 as stated: starting from
`consecutiveBlockhashErrors = 1`, a non-expiry failure resets the counter
to zero although no successful submission and no penalty pause occur in
the invocation. -/
theorem spec_c9_counterexample :
    metricsCbe1.consecutiveBlockhashErrors = 1 ∧
    (executeCrankInstruction envOtherThenVeto
        metricsCbe1).1.consecutiveBlockhashErrors = 0 ∧
    (executeCrankInstruction envOtherThenVeto
        metricsCbe1).1.successCount = metricsCbe1.successCount ∧
    Event.submitted ∉
      (executeCrankInstruction envOtherThenVeto metricsCbe1).2 ∧
    Event.penaltyPause PENALTY_PAUSE_MS ∉
      (executeCrankInstruction envOtherThenVeto metricsCbe1).2 := by
  decide

/-- Claim C9 (amended): `consecutiveBlockhashErrors` is reset to zero
exactly by three events: a successful submission, a penalty pause, and a
non-expiry-class failure; an expiry-class failure below the pause
threshold only increments it.  Formally: the catch handler yields a zero
counter iff the failure was non-expiry or the penalty pause was emitted,
and a successful first attempt leaves the counter at zero. -/
theorem spec_c9_cbe_reset_events (e : ErrClass) (cbe : Nat)
    (envs : Nat → AttemptEnv) (m : Metrics) (slot : Nat)
    (hs : (runAttempt (envs 0)).1 = AttemptResult.success slot) :
    ((handleFailure e cbe).1 = 0 ↔
      e = ErrClass.other ∨
        (handleFailure e cbe).2 =
          [Event.penaltyPause PENALTY_PAUSE_MS]) ∧
    (executeCrankInstruction envs m).1.consecutiveBlockhashErrors =
      0 := by
  constructor
  · rcases e with _ | _
    · by_cases h3 : cbe + 1 ≥ 3
      · simp [handleFailure, h3]
      · simp [handleFailure, h3]
    · simp [handleFailure]
  · have hr : runAttempt (envs 0) =
        (AttemptResult.success slot, (runAttempt (envs 0)).2) := by
      rw [← hs]
    have hrun : executeCrankInstruction envs m =
        ({ m with successCount := m.successCount + 1,
                  lastSuccessSlot := slot,
                  consecutiveBlockhashErrors := 0 },
         (runAttempt (envs 0)).2) :=
      execLoop_success envs 4 0 BASE_DELAY_MS m _ slot hr
    rw [hrun]

/-- Witness for C9 (amended): a non-expiry failure at counter 1 resets
it, and a clean first attempt leaves the process counter at zero. -/
theorem spec_c9_witness :
    ((handleFailure ErrClass.other 1).1 = 0 ↔
      ErrClass.other = ErrClass.other ∨
        (handleFailure ErrClass.other 1).2 =
          [Event.penaltyPause PENALTY_PAUSE_MS]) ∧
    (executeCrankInstruction (fun _ => cleanEnv)
        metrics0).1.consecutiveBlockhashErrors = 0 :=
  spec_c9_cbe_reset_events ErrClass.other 1 (fun _ => cleanEnv)
    metrics0 1000 rfl

end CrankBot
